import Mathlib

/-!
Shallow embedding of `planet_python.py`, a client-side automation layer over
the Planet satellite-imagery REST API, together with theorems checking the
natural-language specification against it.

Python dictionaries and JSON payloads are modelled by the inductive `Json`
below; numbers are modelled by `ℚ` (the script only passes them through,
never computes with them).  HTTP traffic is modelled by explicit response
oracles: a function giving the answer of the server to the n-th request.
-/

/-- JSON values / Python dicts as built and consumed by the script. -/
inductive Json where
  | null
  | str (s : String)
  | num (q : ℚ)
  | bool (b : Bool)
  | arr (elems : List Json)
  | obj (fields : List (String × Json))

/-- Dictionary key lookup, `d[k]` / `d.get(k)`: `none` when the key is
absent (where Python would raise `KeyError`, callers propagate the
`none`). -/
def Json.get? : Json → String → Option Json
  | .obj fields, k => fields.lookup k
  | _, _ => none

/-! ### The `Filter` builder methods (lines 56-98 of the source) -/

/-- `Filter.add_geometry_filter` (line 56). -/
def add_geometry_filter (geo_json_geometry : Json) : Json :=
  .obj [("type", .str "GeometryFilter"),
        ("field_name", .str "geometry"),
        ("config", geo_json_geometry)]

/-- `Filter.add_date_filter` (line 67): inclusive time boundaries. -/
def add_date_filter (st ed : String) : Json :=
  .obj [("type", .str "DateRangeFilter"),
        ("field_name", .str "acquired"),
        ("config", .obj [("gte", .str st), ("lte", .str ed)])]

/-- `Filter.add_cloud_filter` (line 77). -/
def add_cloud_filter (cc : ℚ) : Json :=
  .obj [("type", .str "RangeFilter"),
        ("field_name", .str "cloud_cover"),
        ("config", .obj [("lte", .num cc)])]

/-- `Filter.add_asset_type` (line 88). -/
def add_asset_type (asset_one asset_two : String) : Json :=
  .obj [("type", .str "AndFilter"),
        ("config", .arr
          [.obj [("type", .str "AssetFilter"), ("config", .arr [.str asset_one])],
           .obj [("type", .str "AssetFilter"), ("config", .arr [.str asset_two])]])]

/-- The search request built by `planet_search` (lines 384-400): the four
filters are appended to `Filters` in order, combined into one `AndFilter`,
and paired with the single-element `item_types` list.  This is the JSON
body posted to the quick-search endpoint (line 404). -/
def planet_search_request (item_type st ed : String) (geojson : Json) (cc : ℚ) : Json :=
  let Filters : List Json :=
    [add_geometry_filter geojson,
     add_date_filter st ed,
     add_cloud_filter cc,
     add_asset_type "analytic_sr" "analytic"]
  .obj [("item_types", .arr [.str item_type]),
        ("filter", .obj [("type", .str "AndFilter"), ("config", .arr Filters)])]

/-! ### Scene-metadata rows (`handle_page`, lines 316-363, and `cols`, lines 257-259) -/

/-- The row built for a feature when `item_type == "PSScene4Band"` (single-quoted in Python)
(lines 325-335): `item["id"]` followed by eight property lookups.  A missing
key is a Python `KeyError`, modelled by `none`. -/
def row_PSScene4Band (item : Json) : Option (List Json) :=
  (item.get? "id").bind fun id =>
  (item.get? "properties").bind fun props =>
  (props.get? "acquired").bind fun acquired =>
  (props.get? "cloud_cover").bind fun cloud_cover =>
  (props.get? "origin_x").bind fun origin_x =>
  (props.get? "origin_y").bind fun origin_y =>
  (props.get? "view_angle").bind fun view_angle =>
  (props.get? "sun_azimuth").bind fun sun_azimuth =>
  (props.get? "sun_elevation").bind fun sun_elevation =>
  (props.get? "anomalous_pixels").bind fun anomalous_pixels =>
  some [id, acquired, cloud_cover, origin_x, origin_y, view_angle,
        sun_azimuth, sun_elevation, anomalous_pixels]

/-- The row built when `item_type == "PSOrthoTile"` (lines 336-347): the
PSScene4Band row plus `usable_data`. -/
def row_PSOrthoTile (item : Json) : Option (List Json) :=
  (item.get? "id").bind fun id =>
  (item.get? "properties").bind fun props =>
  (props.get? "acquired").bind fun acquired =>
  (props.get? "cloud_cover").bind fun cloud_cover =>
  (props.get? "origin_x").bind fun origin_x =>
  (props.get? "origin_y").bind fun origin_y =>
  (props.get? "view_angle").bind fun view_angle =>
  (props.get? "sun_azimuth").bind fun sun_azimuth =>
  (props.get? "sun_elevation").bind fun sun_elevation =>
  (props.get? "anomalous_pixels").bind fun anomalous_pixels =>
  (props.get? "usable_data").bind fun usable_data =>
  some [id, acquired, cloud_cover, origin_x, origin_y, view_angle,
        sun_azimuth, sun_elevation, anomalous_pixels, usable_data]

/-- The row built when `item_type == "REOrthoTile"` (lines 348-359); the
source text of this branch is identical to the PSOrthoTile branch. -/
def row_REOrthoTile (item : Json) : Option (List Json) :=
  (item.get? "id").bind fun id =>
  (item.get? "properties").bind fun props =>
  (props.get? "acquired").bind fun acquired =>
  (props.get? "cloud_cover").bind fun cloud_cover =>
  (props.get? "origin_x").bind fun origin_x =>
  (props.get? "origin_y").bind fun origin_y =>
  (props.get? "view_angle").bind fun view_angle =>
  (props.get? "sun_azimuth").bind fun sun_azimuth =>
  (props.get? "sun_elevation").bind fun sun_elevation =>
  (props.get? "anomalous_pixels").bind fun anomalous_pixels =>
  (props.get? "usable_data").bind fun usable_data =>
  some [id, acquired, cloud_cover, origin_x, origin_y, view_angle,
        sun_azimuth, sun_elevation, anomalous_pixels, usable_data]

/-- The `if item_type == ... / elif ... / else` dispatch of the loop body of
`handle_page` (lines 325-361).  In the `else` branch `lst` is never assigned
and `empty_list.append(lst)` raises `NameError`: modelled by `none`. -/
def handle_page_item (item_type : String) (item : Json) : Option (List Json) :=
  if item_type = "PSScene4Band" then row_PSScene4Band item
  else if item_type = "PSOrthoTile" then row_PSOrthoTile item
  else if item_type = "REOrthoTile" then row_REOrthoTile item
  else none

/-- `handle_page` (lines 316-363): iterate over `page["features"]`,
appending one row per feature to `empty_list` (mutation modelled by
accumulator passing). -/
def handle_page (item_type : String) (features : List Json)
    (empty_list : List (List Json)) : Option (List (List Json)) :=
  match features with
  | [] => some empty_list
  | item :: rest =>
    match handle_page_item item_type item with
    | none => none
    | some lst => handle_page item_type rest (empty_list ++ [lst])

/-- The `cols` dict (lines 257-259), keying the DataFrame column names by
product. -/
def cols : List (String × List String) :=
  [("PSScene4Band",
    ["id", "acquired", "cloud_cover", "origin_x", "origin_y", "view_angle",
     "sun_azimuth", "sun_elevation", "anomalous_pixels"]),
   ("PSOrthoTile",
    ["id", "acquired", "cloud_cover", "origin_x", "origin_y", "view_angle",
     "sun_azimuth", "sun_elevation", "anomalous_pixels", "usable_data"]),
   ("REOrthoTile",
    ["id", "acquired", "cloud_cover", "origin_x", "origin_y", "view_angle",
     "sun_azimuth", "sun_elevation", "anomalous_pixels", "usable_data"])]

/-- Spec-side reading of a column name: the `id` column is the top-level
`id` of the feature, every other column is the equally-named entry of the
`properties` of the feature. -/
def col_value (item : Json) (c : String) : Option Json :=
  if c = "id" then item.get? "id"
  else (item.get? "properties").bind (Json.get? · c)

/-- The CSV file name built by `planet_search` (line 416). -/
def csv_name (item_type search_name : String) : String :=
  item_type ++ "_" ++ search_name ++ ".csv"

/-! ### Pagination and the retry-on-429 loop (`fetch_page`, lines 366-382)

A result page, as `fetch_page` reads it: `features` is `page["features"]`
and `next` is `page["_links"].get("_next")` (`none` when `_links` has no
`_next` entry). -/

structure Page where
  features : List Json
  next : Option String

/-- One HTTP response of the search session: its status code and its JSON
body parsed as a page. -/
structure Response where
  status : Nat
  page : Page

/-- A search-session oracle: `server url t` is the response the server gives
to the `t`-th `session.get(url)` issued by the search (a global request
counter; the answers of the server may vary between requests). -/
def SearchServer : Type := String → Nat → Response

/-- The `while res_code == 429` loop of `fetch_page` (lines 371-375).  Each
iteration sleeps one second, then issues two `session.get(search_url)`
calls: the body of the first becomes `page`, the status of the second
becomes `res_code` (exactly as in lines 367-368 / 374-375).  `fuel` bounds
how many iterations we unroll: `none` means the loop is still running after
`fuel` iterations.  On exit it returns the last page, the next free request
index, and the list of sleep durations (in seconds) performed. -/
def fetch_retry (server : SearchServer) (url : String) :
    Nat → Nat → Page → Nat → Option (Page × Nat × List Nat)
  | 0, t, page, res_code =>
    if res_code = 429 then none else some (page, t, [])
  | fuel + 1, t, page, res_code =>
    if res_code = 429 then
      match fetch_retry server url fuel (t + 2) (server url t).page
          (server url (t + 1)).status with
      | none => none
      | some (p, t2, sleeps) => some (p, t2, 1 :: sleeps)
    else some (page, t, [])

/-- `fetch_page` (lines 366-382), run from a first-page URL: two
`session.get` calls give the page body and the status code (lines 367-368),
the 429 loop re-fetches while rate-limited, the page is handled, and when
`page["_links"]` has a `_next` URL the function recurses on it (lines
379-382).  Returns the pages handled, in processing order, together with
the next free request index; rows are accumulated from them by
`planet_search_rows` below.  `rfuel` bounds each 429 loop and `pfuel`
bounds the recursion depth (the Python recursion is unbounded). -/
def fetch_page (server : SearchServer) (rfuel : Nat) :
    Nat → String → Nat → Option (List Page × Nat)
  | 0, _, _ => none
  | pfuel + 1, url, t =>
    match fetch_retry server url rfuel (t + 2) (server url t).page
        (server url (t + 1)).status with
    | none => none
    | some (page, t1, _) =>
      match page.next with
      | none => some ([page], t1)
      | some next_url =>
        match fetch_page server rfuel pfuel next_url t1 with
        | none => none
        | some (pages, t2) => some (page :: pages, t2)

/-- The `store_list` accumulated by `planet_search` (lines 410-412): every
fetched page is passed to `handle_page`, which appends one row per feature,
so the final list is `handle_page` run over the concatenated features of
the visited pages. -/
def planet_search_rows (server : SearchServer) (item_type : String)
    (rfuel pfuel : Nat) (first_url : String) (t : Nat) :
    Option (List (List Json)) :=
  match fetch_page server rfuel pfuel first_url t with
  | none => none
  | some (pages, _) => handle_page item_type (pages.flatMap Page.features) []

/-- The chain of URLs visited by following `_next` links from `url` under a
time-invariant page assignment, ending at the first page with no `_next`
link; `none` if no such page is reached within `n` steps. -/
def page_chain (pageOf : String → Page) : Nat → String → Option (List String)
  | 0, _ => none
  | n + 1, url =>
    match (pageOf url).next with
    | none => some [url]
    | some next_url =>
      match page_chain pageOf n next_url with
      | none => none
      | some urls => some (url :: urls)

/-! ### The order lifecycle (`place_order`, `check_for_success`,
`download_order`, `planet_download_clip`) -/

/-- The HTTP response to the order-creation POST, as `place_order` reads it:
`ok` is `response.ok`, `content` is `response.content`, and `id` is
`response.json()["id"]`. -/
structure HttpResponse where
  ok : Bool
  content : String
  id : String

/-- `place_order` (lines 195-208): raise (`Except.error response.content`)
unless the response is ok, otherwise return the order URL
`orders_url + "/" + order_id`. -/
def place_order (response : HttpResponse) (orders_url : String) :
    Except String String :=
  if ¬ response.ok then .error response.content
  else .ok (orders_url ++ "/" ++ response.id)

/-- A polling oracle: `states k` is the `response["state"]` string returned
by the `k`-th GET of the order URL (0-indexed). -/
def PollStates : Type := Nat → String

/-- The `while(count < num_loops)` loop of `check_for_success`
(lines 214-227), with `count` polls already performed and `remaining =
num_loops - count` iterations allowed.  Returns the total number of polls
performed, the number of 30-second sleeps performed, and the outcome:
`Except.error state` models `raise Exception(response)` on a `failed`
state, `Except.ok ()` models both the `break` on `success`/`partial` and
falling out of the loop when the bound is exhausted. -/
def check_loop (states : PollStates) : Nat → Nat → Nat × Nat × Except String Unit
  | count, 0 => (count, 0, .ok ())
  | count, remaining + 1 =>
    let state := states count
    if state = "failed" then (count + 1, 0, .error state)
    else if state ∈ (["success", "partial"] : List String) then (count + 1, 0, .ok ())
    else
      let rest := check_loop states (count + 1) remaining
      (rest.1, rest.2.1 + 1, rest.2.2)

/-- `check_for_success` (lines 210-227): poll the order URL at most
`num_loops` times. -/
def check_for_success (states : PollStates) (num_loops : Nat) :
    Nat × Nat × Except String Unit :=
  check_loop states 0 num_loops

/-- The call `check_for_success(clip_order_url, auth=client.ses.auth)` in
`planet_download_clip` (line 505) uses the default `num_loops=100`. -/
def check_for_success_default (states : PollStates) : Nat × Nat × Except String Unit :=
  check_for_success states 100

/-- Observable steps of `planet_download_clip`: the order-creation POST
(`submit`, line 501), one GET of the order URL inside `check_for_success`
(`poll`), the invocation of `download_order` (`download`, line 508), and the
file-system effects of the error handler (lines 516-519): `mkdir` is
`Path(...).mkdir(parents=True, exist_ok=True)` and `writeError path msg` is
opening `path` for writing and writing `msg` to it. -/
inductive ClipEvent where
  | submit
  | poll
  | download
  | mkdir (path : String)
  | writeError (path : String) (msg : String)
deriving DecidableEq

/-- The error-handler body of `planet_download_clip` (lines 510-521):
create `save_dir/errors`, write `str(error)` into
`save_dir + "/errors/" + feature_name + "_error_message.txt"`, and fall
through (`pass`), returning normally. -/
def clip_error_events (save_dir feature_name error_string : String) : List ClipEvent :=
  [.mkdir (save_dir ++ "/errors"),
   .writeError (save_dir ++ "/errors/" ++ feature_name ++ "_error_message.txt")
     error_string]

/-- `planet_download_clip` (lines 431-521), as the list of observable steps
it performs.  `order_response` is the answer of the server to the order POST;
`states` drives the polling; `download_res url` is the outcome of
`download_order` on the order URL (in a model where it can raise — in the
source it is wrapped in an unlimited `@retry`, see `C4`-adjacent notes).
The `try` block runs submit, then poll, then download; the first step that
raises jumps to the `except` handler, which writes the error file and
returns normally — the function never re-raises, so its result type is a
plain event list, not `Except`. -/
def planet_download_clip (order_response : HttpResponse) (orders_url : String)
    (states : PollStates) (download_res : String → Except String Unit)
    (save_dir feature_name : String) : List ClipEvent :=
  match place_order order_response orders_url with
  | .error e => .submit :: clip_error_events save_dir feature_name e
  | .ok clip_order_url =>
    match check_for_success_default states with
    | (polls, _, .error e) =>
      .submit :: (List.replicate polls .poll ++ clip_error_events save_dir feature_name e)
    | (polls, _, .ok _) =>
      match download_res clip_order_url with
      | .error e =>
        .submit :: (List.replicate polls .poll ++ .download ::
          clip_error_events save_dir feature_name e)
      | .ok _ =>
        .submit :: (List.replicate polls .poll ++ [.download])

/-- The first exception raised inside the `try` block of
`planet_download_clip`, if any: submit, then poll, then download. -/
def clip_error (order_response : HttpResponse) (orders_url : String)
    (states : PollStates) (download_res : String → Except String Unit) :
    Option String :=
  match place_order order_response orders_url with
  | .error e => some e
  | .ok clip_order_url =>
    match check_for_success_default states with
    | (_, _, .error e) => some e
    | (_, _, .ok _) =>
      match download_res clip_order_url with
      | .error e => some e
      | .ok _ => none

/-! ### `get_point_square` (lines 147-193) -/

/-- The five vertices of the square built by `get_point_square`, as
(longitude, latitude) pairs, in source order (lines 184-190). -/
def square_vertices (lat lon size : ℚ) : List (ℚ × ℚ) :=
  [(lon, lat), (lon + size, lat), (lon + size, lat - size), (lon, lat - size), (lon, lat)]

/-- `get_point_square` (lines 147-193): the geojson dictionary returned. -/
def get_point_square (lat lon size : ℚ) : Json :=
  .obj [("type", .str "Polygon"),
        ("coordinates", .arr [.arr ((square_vertices lat lon size).map
          (fun v => .arr [.num v.1, .num v.2]))])]

/-- The geometric center of the square whose vertices `get_point_square`
returns: the midpoint of the corner (lon, lat) and the opposite corner
(lon + size, lat - size). -/
def square_center (lat lon size : ℚ) : ℚ × ℚ :=
  (lon + size / 2, lat - size / 2)

/-- A poll response state that is none of `failed`, `success`, `partial`:
the loop of `check_for_success` treats it as still processing. -/
def nonterminal_state (s : String) : Prop :=
  s ≠ "failed" ∧ s ≠ "success" ∧ s ≠ "partial"

/-! ### Concrete fixtures used to instantiate the theorems below -/

/-- A server that answers every request with HTTP 429. -/
def allBusyServer : SearchServer := fun _ _ => ⟨429, ⟨[], none⟩⟩

/-- A server whose first requests are rate-limited: status 429 up to request
index 6, status 200 from request index 7 on. -/
def busyThenOkServer : SearchServer := fun _ t =>
  if t < 7 then ⟨429, ⟨[], none⟩⟩ else ⟨200, ⟨[], none⟩⟩

/-- A two-page catalog: page `A` links to page `B`, page `B` is last. -/
def chainPageOf : String → Page := fun url =>
  if url = "A" then ⟨[], some "B"⟩ else ⟨[], none⟩

/-- The two-page catalog served with status 200, identically at all times. -/
def chainServer : SearchServer := fun url _ => ⟨200, chainPageOf url⟩

/-- A feature carrying every metadata key the rows read. -/
def sampleItem : Json :=
  .obj [("id", .str "scene-1"),
        ("properties",
          .obj [("acquired", .str "2019-07-02T16:00:00.000Z"),
                ("cloud_cover", .num 0),
                ("origin_x", .num 1),
                ("origin_y", .num 2),
                ("view_angle", .num 3),
                ("sun_azimuth", .num 4),
                ("sun_elevation", .num 5),
                ("anomalous_pixels", .num 6),
                ("usable_data", .num 7)])]

/-- A server answering every request with a single last page holding
`sampleItem`. -/
def samplePageServer : SearchServer := fun _ _ => ⟨200, ⟨[sampleItem], none⟩⟩

/-- The single page served by `samplePageServer`. -/
def samplePage : Page := ⟨[sampleItem], none⟩

/-- The row `handle_page` builds for `sampleItem` as a PSScene4Band scene. -/
def sampleRow : List Json :=
  [.str "scene-1", .str "2019-07-02T16:00:00.000Z", .num 0, .num 1, .num 2,
   .num 3, .num 4, .num 5, .num 6]

/-- An order that reports `running` at every poll. -/
def runningStates : PollStates := fun _ => "running"

/-- An order that reports `success` at every poll. -/
def successStates : PollStates := fun _ => "success"

/-! ## Theorems

Each claim theorem is stated over the embedding above; helper lemmas are
shared, claim theorems are not reused. -/

/-- C1: for every call to `planet_search`, the search request posted to the
quick-search endpoint has a filter that is an AndFilter combining exactly a
GeometryFilter on field `geometry` with config the given geojson, a
DateRangeFilter on field `acquired` with inclusive bounds `gte = st` and
`lte = ed`, a RangeFilter on field `cloud_cover` with `lte = cc`, and an
asset-type AndFilter for `analytic_sr` and `analytic`: the catalog is
searched by geographic area, date range, and cloud-cover threshold. -/
theorem planet_search_request_filter (item_type st ed : String) (geojson : Json) (cc : ℚ) :
    ∃ geomF dateF cloudF assetF : Json,
      (planet_search_request item_type st ed geojson cc).get? "filter" =
        some (.obj [("type", .str "AndFilter"),
                    ("config", .arr [geomF, dateF, cloudF, assetF])]) ∧
      geomF.get? "type" = some (.str "GeometryFilter") ∧
      geomF.get? "field_name" = some (.str "geometry") ∧
      geomF.get? "config" = some geojson ∧
      dateF.get? "type" = some (.str "DateRangeFilter") ∧
      dateF.get? "field_name" = some (.str "acquired") ∧
      (dateF.get? "config").bind (Json.get? · "gte") = some (.str st) ∧
      (dateF.get? "config").bind (Json.get? · "lte") = some (.str ed) ∧
      cloudF.get? "type" = some (.str "RangeFilter") ∧
      cloudF.get? "field_name" = some (.str "cloud_cover") ∧
      cloudF.get? "config" = some (.obj [("lte", .num cc)]) ∧
      assetF = add_asset_type "analytic_sr" "analytic" ∧
      (planet_search_request item_type st ed geojson cc).get? "item_types" =
        some (.arr [.str item_type]) :=
  ⟨add_geometry_filter geojson, add_date_filter st ed, add_cloud_filter cc,
    add_asset_type "analytic_sr" "analytic",
    rfl, rfl, rfl, rfl, rfl, rfl, rfl, rfl, rfl, rfl, rfl, rfl, rfl⟩

/-- C8: `get_point_square lat lon size` returns a closed 5-vertex polygon
whose first and last vertices are exactly (lon, lat) and whose other
vertices are (lon+size, lat), (lon+size, lat-size), (lon, lat-size): the
given point is the north-west corner of a square extending `size` degrees
east and south, and it is not the center of that square (contrary to the
docstring). -/
theorem get_point_square_northwest_corner (lat lon size : ℚ) (hsize : 0 < size) :
    get_point_square lat lon size =
      .obj [("type", .str "Polygon"),
            ("coordinates", .arr [.arr
              [.arr [.num lon, .num lat],
               .arr [.num (lon + size), .num lat],
               .arr [.num (lon + size), .num (lat - size)],
               .arr [.num lon, .num (lat - size)],
               .arr [.num lon, .num lat]]])] ∧
    (square_vertices lat lon size).length = 5 ∧
    (square_vertices lat lon size).head? = some (lon, lat) ∧
    (square_vertices lat lon size).getLast? = some (lon, lat) ∧
    (∀ v ∈ square_vertices lat lon size,
      lon ≤ v.1 ∧ v.1 ≤ lon + size ∧ lat - size ≤ v.2 ∧ v.2 ≤ lat) ∧
    square_center lat lon size ≠ (lon, lat) := by
  refine ⟨rfl, rfl, rfl, rfl, ?_, ?_⟩
  · intro v hv
    simp only [square_vertices, List.mem_cons, List.not_mem_nil, or_false] at hv
    rcases hv with rfl | rfl | rfl | rfl | rfl <;> dsimp only <;>
      exact ⟨by linarith, by linarith, by linarith, by linarith⟩
  · intro hc
    simp only [square_center, Prod.mk.injEq] at hc
    linarith [hc.1]

/-- Witness for C8 at lat = 0, lon = 0, size = 1. -/
theorem get_point_square_northwest_corner_witness :
    square_center 0 0 1 ≠ ((0 : ℚ), (0 : ℚ)) :=
  (get_point_square_northwest_corner 0 0 1 (by norm_num)).2.2.2.2.2

/-- The poll counter of `check_loop` never exceeds `count + remaining`. -/
theorem check_loop_fst_le (states : PollStates) :
    ∀ remaining count, (check_loop states count remaining).1 ≤ count + remaining := by
  intro remaining
  induction remaining with
  | zero => intro count; simp [check_loop]
  | succ r ih =>
    intro count
    simp only [check_loop]
    split
    · dsimp only; omega
    · split
      · dsimp only; omega
      · dsimp only
        exact le_trans (ih (count + 1)) (by omega)

/-- The poll counter of `check_loop` starts from `count`. -/
theorem check_loop_fst_ge (states : PollStates) :
    ∀ remaining count, count ≤ (check_loop states count remaining).1 := by
  intro remaining
  induction remaining with
  | zero => intro count; simp [check_loop]
  | succ r ih =>
    intro count
    simp only [check_loop]
    split
    · dsimp only; omega
    · split
      · dsimp only; omega
      · dsimp only
        exact le_trans (by omega) (ih (count + 1))

/-- C5: for every call to `check_for_success`, the order state is polled at
most `num_loops` times (default 100), so the loop terminates after at most
`num_loops` iterations even if the order never reaches a terminal state. -/
theorem check_for_success_polls_bounded (states : PollStates) (num_loops : Nat) :
    (check_for_success states num_loops).1 ≤ num_loops ∧
    (check_for_success_default states).1 ≤ 100 :=
  ⟨by simpa [check_for_success] using check_loop_fst_le states num_loops 0,
   by simpa [check_for_success_default, check_for_success] using check_loop_fst_le states 100 0⟩

/-- If the first `m` polled states are nonterminal and the next one is
`failed`, the loop raises after exactly `m + 1` polls and `m` sleeps. -/
theorem check_loop_failed (states : PollStates) :
    ∀ m remaining count, m < remaining →
    (∀ j, j < m → nonterminal_state (states (count + j))) →
    states (count + m) = "failed" →
    check_loop states count remaining = (count + m + 1, m, .error (states (count + m))) := by
  intro m
  induction m with
  | zero =>
    intro remaining count hm hpre hfail
    obtain ⟨r, rfl⟩ : ∃ r, remaining = r + 1 := ⟨remaining - 1, by omega⟩
    rw [Nat.add_zero] at hfail
    simp [check_loop, hfail]
  | succ m ih =>
    intro remaining count hm hpre hfail
    obtain ⟨r, rfl⟩ : ∃ r, remaining = r + 1 := ⟨remaining - 1, by omega⟩
    obtain ⟨hf, hs, hp⟩ : nonterminal_state (states count) := by
      simpa using hpre 0 (by omega)
    have hrec := ih r (count + 1) (by omega)
      (fun j hj => by
        have := hpre (j + 1) (by omega)
        rwa [show count + (j + 1) = count + 1 + j by omega] at this)
      (by rwa [show count + 1 + m = count + (m + 1) by omega])
    simp only [check_loop]
    rw [if_neg hf, if_neg (by simp [hs, hp])]
    rw [hrec]
    have h1 : count + 1 + m = count + (m + 1) := by omega
    rw [h1]

/-- If the first `m` polled states are nonterminal and the next one is
`success` or `partial`, the loop breaks after exactly `m + 1` polls and `m`
sleeps, returning normally. -/
theorem check_loop_success (states : PollStates) :
    ∀ m remaining count, m < remaining →
    (∀ j, j < m → nonterminal_state (states (count + j))) →
    (states (count + m) = "success" ∨ states (count + m) = "partial") →
    check_loop states count remaining = (count + m + 1, m, .ok ()) := by
  intro m
  induction m with
  | zero =>
    intro remaining count hm hpre hterm
    obtain ⟨r, rfl⟩ : ∃ r, remaining = r + 1 := ⟨remaining - 1, by omega⟩
    rw [Nat.add_zero] at hterm
    rcases hterm with h | h <;> simp [check_loop, h]
  | succ m ih =>
    intro remaining count hm hpre hterm
    obtain ⟨r, rfl⟩ : ∃ r, remaining = r + 1 := ⟨remaining - 1, by omega⟩
    obtain ⟨hf, hs, hp⟩ : nonterminal_state (states count) := by
      simpa using hpre 0 (by omega)
    have hrec := ih r (count + 1) (by omega)
      (fun j hj => by
        have := hpre (j + 1) (by omega)
        rwa [show count + (j + 1) = count + 1 + j by omega] at this)
      (by rwa [show count + 1 + m = count + (m + 1) by omega])
    simp only [check_loop]
    rw [if_neg hf, if_neg (by simp [hs, hp])]
    rw [hrec]
    have h1 : count + 1 + m = count + (m + 1) := by omega
    rw [h1]

/-- If every state polled within the bound is nonterminal, the loop exhausts
the bound, sleeping after every poll, and returns normally. -/
theorem check_loop_all_nonterminal (states : PollStates) :
    ∀ remaining count, (∀ j, j < remaining → nonterminal_state (states (count + j))) →
    check_loop states count remaining = (count + remaining, remaining, .ok ()) := by
  intro remaining
  induction remaining with
  | zero => intro count h; simp [check_loop]
  | succ r ih =>
    intro count h
    obtain ⟨hf, hs, hp⟩ : nonterminal_state (states count) := by
      simpa using h 0 (by omega)
    have hrec := ih (count + 1) (fun j hj => by
      have := h (j + 1) (by omega)
      rwa [show count + (j + 1) = count + 1 + j by omega] at this)
    simp only [check_loop]
    rw [if_neg hf, if_neg (by simp [hs, hp])]
    rw [hrec]
    have h1 : count + 1 + r = count + (r + 1) := by omega
    rw [h1]

/-- After `m` nonterminal polls with iterations to spare, the loop polls at
least once more. -/
theorem check_loop_polls_succ (states : PollStates) :
    ∀ m remaining count, m < remaining →
    (∀ j, j < m → nonterminal_state (states (count + j))) →
    count + m + 1 ≤ (check_loop states count remaining).1 := by
  intro m
  induction m with
  | zero =>
    intro remaining count hm _
    obtain ⟨r, rfl⟩ : ∃ r, remaining = r + 1 := ⟨remaining - 1, by omega⟩
    simp only [check_loop]
    split
    · dsimp only; omega
    · split
      · dsimp only; omega
      · dsimp only
        have := check_loop_fst_ge states r (count + 1)
        omega
  | succ m ih =>
    intro remaining count hm hpre
    obtain ⟨r, rfl⟩ : ∃ r, remaining = r + 1 := ⟨remaining - 1, by omega⟩
    obtain ⟨hf, hs, hp⟩ : nonterminal_state (states count) := by
      simpa using hpre 0 (by omega)
    simp only [check_loop]
    rw [if_neg hf, if_neg (by simp [hs, hp])]
    dsimp only
    have := ih r (count + 1) (by omega) (fun j hj => by
      have := hpre (j + 1) (by omega)
      rwa [show count + (j + 1) = count + 1 + j by omega] at this)
    omega

/-- Each nonterminal poll is followed by a 30-second sleep, so `m`
nonterminal polls give at least `m` sleeps. -/
theorem check_loop_sleeps_ge (states : PollStates) :
    ∀ m remaining count, m ≤ remaining →
    (∀ j, j < m → nonterminal_state (states (count + j))) →
    m ≤ (check_loop states count remaining).2.1 := by
  intro m
  induction m with
  | zero => intro remaining count _ _; omega
  | succ m ih =>
    intro remaining count hm hpre
    obtain ⟨r, rfl⟩ : ∃ r, remaining = r + 1 := ⟨remaining - 1, by omega⟩
    obtain ⟨hf, hs, hp⟩ : nonterminal_state (states count) := by
      simpa using hpre 0 (by omega)
    simp only [check_loop]
    rw [if_neg hf, if_neg (by simp [hs, hp])]
    dsimp only
    have := ih r (count + 1) (by omega) (fun j hj => by
      have := hpre (j + 1) (by omega)
      rwa [show count + (j + 1) = count + 1 + j by omega] at this)
    omega

/-- C6: within the polling bound, `check_for_success` raises exactly when
the observed order state is `failed`, stops polling and returns normally as
soon as the observed state is `success` or `partial`, and for any other
state sleeps and polls again. -/
theorem check_for_success_terminal_behavior (states : PollStates) (num_loops k : Nat)
    (hk : k < num_loops)
    (hpre : ∀ j, j < k → nonterminal_state (states j)) :
    (states k = "failed" →
      check_for_success states num_loops = (k + 1, k, .error (states k))) ∧
    (states k = "success" ∨ states k = "partial" →
      check_for_success states num_loops = (k + 1, k, .ok ())) ∧
    (nonterminal_state (states k) →
      k + 1 ≤ (check_for_success states num_loops).2.1 ∧
      (k + 1 < num_loops → k + 2 ≤ (check_for_success states num_loops).1)) := by
  have hpre0 : ∀ j, j < k → nonterminal_state (states (0 + j)) := by
    intro j hj; rw [Nat.zero_add]; exact hpre j hj
  refine ⟨?_, ?_, ?_⟩
  · intro hfail
    have := check_loop_failed states k num_loops 0 hk hpre0 (by rwa [Nat.zero_add])
    simpa [check_for_success] using this
  · intro hterm
    have := check_loop_success states k num_loops 0 hk hpre0
      (by rwa [Nat.zero_add])
    simpa [check_for_success] using this
  · intro hk_nonterm
    have hall : ∀ j, j < k + 1 → nonterminal_state (states (0 + j)) := by
      intro j hj
      rw [Nat.zero_add]
      rcases Nat.lt_or_ge j k with h | h
      · exact hpre j h
      · have hjk : j = k := by omega
        subst hjk; exact hk_nonterm
    constructor
    · have := check_loop_sleeps_ge states (k + 1) num_loops 0 (by omega) hall
      simpa [check_for_success] using this
    · intro hlt
      have := check_loop_polls_succ states (k + 1) num_loops 0 hlt hall
      simpa [check_for_success] using this

/-- Witness for C6: an order reporting `success` on the very first poll
returns normally after one poll and no sleep. -/
theorem check_for_success_terminal_behavior_witness :
    check_for_success successStates 100 = (1, 0, .ok ()) :=
  (check_for_success_terminal_behavior successStates 100 0 (by norm_num)
    (fun j hj => absurd hj (Nat.not_lt_zero j))).2.1 (Or.inl rfl)

/-- C10: if the order state never becomes `failed`, `success`, or `partial`
within `num_loops` polls, `check_for_success` returns normally after
exhausting the bound, without raising or otherwise signalling the timeout;
with the default bound used by `planet_download_clip`, the subsequent
download is then attempted anyway. -/
theorem check_for_success_timeout_returns_ok (states : PollStates) (num_loops : Nat)
    (h : ∀ k, k < num_loops → nonterminal_state (states k)) :
    check_for_success states num_loops = (num_loops, num_loops, .ok ()) ∧
    (num_loops = 100 →
      ∀ (resp : HttpResponse) (orders_url : String)
        (dres : String → Except String Unit) (save_dir fname : String),
        resp.ok = true →
        ClipEvent.download ∈ planet_download_clip resp orders_url states dres save_dir fname) := by
  have hmain : check_for_success states num_loops = (num_loops, num_loops, .ok ()) := by
    have := check_loop_all_nonterminal states num_loops 0
      (fun j hj => by rw [Nat.zero_add]; exact h j hj)
    simpa [check_for_success] using this
  refine ⟨hmain, ?_⟩
  rintro rfl resp orders_url dres save_dir fname hok
  have hplace : place_order resp orders_url = .ok (orders_url ++ "/" ++ resp.id) := by
    simp [place_order, hok]
  have hcheck : check_for_success_default states = (100, 100, .ok ()) := hmain
  rcases hd : dres (orders_url ++ "/" ++ resp.id) with e | u <;>
    simp [planet_download_clip, hplace, hcheck, hd, clip_error_events,
      List.mem_append, List.mem_replicate]

/-- Witness for C10: an order stuck reporting `running` exhausts all 100
polls, returns normally, and the download step still runs. -/
theorem check_for_success_timeout_returns_ok_witness :
    check_for_success runningStates 100 = (100, 100, .ok ()) ∧
    ClipEvent.download ∈ planet_download_clip ⟨true, "", "oid"⟩ "orders"
      runningStates (fun _ => .ok ()) "out" "feat" := by
  have h := check_for_success_timeout_returns_ok runningStates 100
    (fun k _ => ⟨by simp [runningStates], by simp [runningStates], by simp [runningStates]⟩)
  exact ⟨h.1, h.2 rfl ⟨true, "", "oid"⟩ "orders" (fun _ => .ok ()) "out" "feat" rfl⟩

/-- C3: the order lifecycle of `planet_download_clip` is strictly submit,
then poll, then download: `place_order` returns the order URL exactly when
the HTTP response is ok (raising otherwise), and whenever the download step
is invoked the event trace starts with the submit, followed by at least one
poll, before the download. -/
theorem planet_download_clip_lifecycle (resp : HttpResponse) (orders_url : String)
    (states : PollStates) (dres : String → Except String Unit) (save_dir fname : String) :
    place_order resp orders_url =
      (if resp.ok then .ok (orders_url ++ "/" ++ resp.id) else .error resp.content) ∧
    (ClipEvent.download ∈ planet_download_clip resp orders_url states dres save_dir fname →
      ∃ polls rest, 1 ≤ polls ∧
        planet_download_clip resp orders_url states dres save_dir fname =
          .submit :: (List.replicate polls .poll ++ .download :: rest)) := by
  constructor
  · cases hok : resp.ok <;> simp [place_order, hok]
  · intro hmem
    rcases hcheck : check_for_success_default states with ⟨polls, sleeps, out⟩
    have hpolls : 1 ≤ polls := by
      have h1 : 1 ≤ (check_for_success_default states).1 := by
        have := check_loop_polls_succ states 0 100 0 (by norm_num)
          (fun j hj => absurd hj (Nat.not_lt_zero j))
        simpa [check_for_success_default, check_for_success] using this
      rw [hcheck] at h1
      exact h1
    cases hok : resp.ok
    · exfalso
      have hplace : place_order resp orders_url = .error resp.content := by
        simp [place_order, hok]
      simp [planet_download_clip, hplace, clip_error_events] at hmem
    · have hplace : place_order resp orders_url = .ok (orders_url ++ "/" ++ resp.id) := by
        simp [place_order, hok]
      rcases out with e | u
      · exfalso
        simp [planet_download_clip, hplace, hcheck, clip_error_events,
          List.mem_append, List.mem_replicate] at hmem
      · rcases hd : dres (orders_url ++ "/" ++ resp.id) with e | u2
        · exact ⟨polls, clip_error_events save_dir fname e, hpolls, by
            simp [planet_download_clip, hplace, hcheck, hd]⟩
        · exact ⟨polls, [], hpolls, by
            simp [planet_download_clip, hplace, hcheck, hd]⟩

/-- Witness for C3: a successful run submits, polls once, downloads. -/
theorem planet_download_clip_lifecycle_witness :
    ∃ polls rest, 1 ≤ polls ∧
      planet_download_clip ⟨true, "", "oid"⟩ "orders" successStates
        (fun _ => .ok ()) "out" "feat" =
        .submit :: (List.replicate polls .poll ++ .download :: rest) :=
  (planet_download_clip_lifecycle ⟨true, "", "oid"⟩ "orders" successStates
    (fun _ => .ok ()) "out" "feat").2 (by decide)

/-- C9: `planet_download_clip` never propagates an exception: whenever a
step of submit, poll, or download raises (`clip_error = some e`), the
handler creates the errors directory and writes the message to
`save_dir + "/errors/" + feature_name + "_error_message.txt"`, and the
function still returns normally (its embedding is a total function into
event lists, with no error outcome). -/
theorem planet_download_clip_catches_errors (resp : HttpResponse) (orders_url : String)
    (states : PollStates) (dres : String → Except String Unit)
    (save_dir fname e : String)
    (h : clip_error resp orders_url states dres = some e) :
    ∃ pre, planet_download_clip resp orders_url states dres save_dir fname =
        pre ++ [.mkdir (save_dir ++ "/errors"),
                .writeError (save_dir ++ "/errors/" ++ fname ++ "_error_message.txt") e] := by
  unfold clip_error at h
  rcases hplace : place_order resp orders_url with e1 | url
  · rw [hplace] at h
    obtain rfl := Option.some.inj h
    exact ⟨[.submit], by simp [planet_download_clip, hplace, clip_error_events]⟩
  · rw [hplace] at h
    rcases hcheck : check_for_success_default states with ⟨polls, sleeps, out⟩
    rw [hcheck] at h
    rcases out with e2 | u
    · obtain rfl := Option.some.inj h
      exact ⟨.submit :: List.replicate polls .poll, by
        simp [planet_download_clip, hplace, hcheck, clip_error_events]⟩
    · rcases hd : dres url with e3 | u2
      · simp only [hd] at h
        obtain rfl : e3 = e := by simpa using h
        exact ⟨.submit :: (List.replicate polls .poll ++ [.download]), by
          simp [planet_download_clip, hplace, hcheck, hd, clip_error_events,
            List.append_assoc]⟩
      · simp only [hd] at h
        simp at h

/-- Witness for C9: a rejected order POST gets its message written to the
error file and the run still produces a trace. -/
theorem planet_download_clip_catches_errors_witness :
    ∃ pre, planet_download_clip ⟨false, "boom", "oid"⟩ "orders" successStates
        (fun _ => .ok ()) "out" "feat" =
        pre ++ [.mkdir ("out" ++ "/errors"),
                .writeError ("out" ++ "/errors/" ++ "feat" ++ "_error_message.txt") "boom"] :=
  planet_download_clip_catches_errors ⟨false, "boom", "oid"⟩ "orders" successStates
    (fun _ => .ok ()) "out" "feat" "boom" (by rfl)

/-- Every wait performed by the retry-on-429 loop is exactly one second. -/
theorem fetch_retry_sleeps_all_one (server : SearchServer) (url : String) :
    ∀ fuel t page res_code p2 t2 sleeps,
      fetch_retry server url fuel t page res_code = some (p2, t2, sleeps) →
      sleeps.all (fun s => s = 1) = true := by
  intro fuel
  induction fuel with
  | zero =>
    intro t page res_code p2 t2 sleeps h
    unfold fetch_retry at h
    split at h
    · exact absurd h (by simp)
    · simp only [Option.some.injEq, Prod.mk.injEq] at h
      obtain ⟨-, -, rfl⟩ := h
      rfl
  | succ f ih =>
    intro t page res_code p2 t2 sleeps h
    unfold fetch_retry at h
    split at h
    · rcases hrec : fetch_retry server url f (t + 2) ((server url t).page)
          ((server url (t + 1)).status) with _ | ⟨p, t3, ss⟩
      · rw [hrec] at h
        exact absurd h (by simp)
      · rw [hrec] at h
        simp only [Option.some.injEq, Prod.mk.injEq] at h
        obtain ⟨-, -, rfl⟩ := h
        have := ih (t + 2) ((server url t).page) ((server url (t + 1)).status) p t3 ss hrec
        simpa using this
    · simp only [Option.some.injEq, Prod.mk.injEq] at h
      obtain ⟨-, -, rfl⟩ := h
      rfl

/-- Against a server that always answers 429, the retry loop is still
running after any number of unrolled iterations. -/
theorem fetch_retry_allBusy_none (url : String) :
    ∀ fuel t page, fetch_retry allBusyServer url fuel t page 429 = none := by
  intro fuel
  induction fuel with
  | zero => intro t page; simp [fetch_retry]
  | succ f ih =>
    intro t page
    simp [fetch_retry, allBusyServer, ih]

/-- C4 counterexample: against a server that is rate-limited for the first
three attempts, the waits performed by the retry loop of `fetch_page` are
[1, 1, 1] — they do not grow between attempts, so the wait time is not
exponential (and there is no explicit maximum number of attempts in the
loop). -/
theorem fetch_retry_no_exponential_backoff :
    fetch_retry busyThenOkServer "u" 10 2 (busyThenOkServer "u" 0).page
        ((busyThenOkServer "u" 1).status) =
      some (⟨[], none⟩, 8, [1, 1, 1]) ∧
    ¬ List.Chain' (fun a b : Nat => a < b) [1, 1, 1] := by
  exact ⟨rfl, by simp [List.chain'_cons]⟩

/-- C4 (amended): the retry-on-429 loop of `fetch_page` is an unbounded
retry policy with constant backoff: every wait of a completed run is
exactly one second, and against a server that always answers 429 the loop
is still running after any number of iterations, so it has no fixed
maximum number of retries. -/
theorem fetch_retry_unbounded_constant_wait (server : SearchServer) (url : String)
    (fuel t res_code : Nat) (page p2 : Page) (t2 : Nat) (sleeps : List Nat)
    (h : fetch_retry server url fuel t page res_code = some (p2, t2, sleeps)) :
    sleeps.all (fun s => s = 1) = true ∧
    fetch_retry allBusyServer url fuel t page 429 = none :=
  ⟨fetch_retry_sleeps_all_one server url fuel t page res_code p2 t2 sleeps h,
   fetch_retry_allBusy_none url fuel t page⟩

/-- Witness for the amended C4 at the concrete rate-limited server. -/
theorem fetch_retry_unbounded_constant_wait_witness :
    ([1, 1, 1] : List Nat).all (fun s => s = 1) = true ∧
    fetch_retry allBusyServer "u" 10 2 ⟨[], none⟩ 429 = none :=
  fetch_retry_unbounded_constant_wait busyThenOkServer "u" 10 2 429 ⟨[], none⟩
    ⟨[], none⟩ 8 [1, 1, 1] (by rfl)

/-- A `_next` chain starts at its starting URL. -/
theorem page_chain_head (pageOf : String → Page) :
    ∀ n url urls, page_chain pageOf n url = some urls → urls.head? = some url := by
  intro n
  induction n with
  | zero => intro url urls h; exact absurd h (by simp [page_chain])
  | succ n ih =>
    intro url urls h
    unfold page_chain at h
    rcases hnext : (pageOf url).next with _ | next_url <;> simp only [hnext] at h
    · obtain rfl := Option.some.inj h
      rfl
    · rcases hrec : page_chain pageOf n next_url with _ | urls2 <;>
        simp only [hrec] at h
      · exact absurd h (by simp)
      · obtain rfl := Option.some.inj h
        rfl

/-- Consecutive URLs of a `_next` chain are linked by `_next`. -/
theorem page_chain_links (pageOf : String → Page) :
    ∀ n url urls, page_chain pageOf n url = some urls →
      List.Chain' (fun a b => (pageOf a).next = some b) urls := by
  intro n
  induction n with
  | zero => intro url urls h; exact absurd h (by simp [page_chain])
  | succ n ih =>
    intro url urls h
    unfold page_chain at h
    rcases hnext : (pageOf url).next with _ | next_url <;> simp only [hnext] at h
    · obtain rfl := Option.some.inj h
      simp
    · rcases hrec : page_chain pageOf n next_url with _ | urls2 <;>
        simp only [hrec] at h
      · exact absurd h (by simp)
      · obtain rfl := Option.some.inj h
        rw [List.chain'_cons']
        refine ⟨?_, ih next_url urls2 hrec⟩
        intro b hb
        rw [page_chain_head pageOf n next_url urls2 hrec] at hb
        obtain rfl := Option.some.inj hb
        exact hnext

/-- The last page of a `_next` chain has no `_next` link. -/
theorem page_chain_last (pageOf : String → Page) :
    ∀ n url urls, page_chain pageOf n url = some urls →
      ∀ hne : urls ≠ [], (pageOf (urls.getLast hne)).next = none := by
  intro n
  induction n with
  | zero => intro url urls h; exact absurd h (by simp [page_chain])
  | succ n ih =>
    intro url urls h hne
    unfold page_chain at h
    rcases hnext : (pageOf url).next with _ | next_url <;> simp only [hnext] at h
    · obtain rfl := Option.some.inj h
      simpa using hnext
    · rcases hrec : page_chain pageOf n next_url with _ | urls2 <;>
        simp only [hrec] at h
      · exact absurd h (by simp)
      · obtain rfl := Option.some.inj h
        have hne2 : urls2 ≠ [] := by
          intro hcon
          subst hcon
          exact absurd (page_chain_head pageOf n next_url [] hrec) (by simp)
        rw [List.getLast_cons hne2]
        exact ih next_url urls2 hrec hne2

/-- When the status is not 429, the retry loop exits at once with the page
it was given, without sleeping. -/
theorem fetch_retry_not429 (server : SearchServer) (url : String)
    (fuel t : Nat) (page : Page) (res_code : Nat) (h : res_code ≠ 429) :
    fetch_retry server url fuel t page res_code = some (page, t, []) := by
  cases fuel <;> simp [fetch_retry, h]

/-- Under a time-invariant, never rate-limited server, `fetch_page` visits
exactly the pages of the `_next` chain, in chain order. -/
theorem fetch_page_chain_aux (server : SearchServer) (pageOf : String → Page)
    (hserver : ∀ url t, server url t = ⟨200, pageOf url⟩) (rfuel : Nat) :
    ∀ n url urls pfuel t, page_chain pageOf n url = some urls →
      urls.length ≤ pfuel →
      ∃ t2, fetch_page server rfuel pfuel url t = some (urls.map pageOf, t2) := by
  intro n
  induction n with
  | zero => intro url urls pfuel t h; exact absurd h (by simp [page_chain])
  | succ n ih =>
    intro url urls pfuel t hchain hfuel
    unfold page_chain at hchain
    rcases hnext : (pageOf url).next with _ | next_url <;> simp only [hnext] at hchain
    · obtain rfl := Option.some.inj hchain
      obtain ⟨pf, rfl⟩ : ∃ pf, pfuel = pf + 1 := ⟨pfuel - 1, by simp at hfuel; omega⟩
      refine ⟨t + 2, ?_⟩
      unfold fetch_page
      rw [hserver url t, hserver url (t + 1)]
      rw [fetch_retry_not429 server url rfuel (t + 2) (pageOf url) 200 (by norm_num)]
      simp [hnext]
    · rcases hrec : page_chain pageOf n next_url with _ | urls2 <;>
        simp only [hrec] at hchain
      · exact absurd hchain (by simp)
      · obtain rfl := Option.some.inj hchain
        obtain ⟨pf, rfl⟩ : ∃ pf, pfuel = pf + 1 := ⟨pfuel - 1, by simp at hfuel; omega⟩
        have hlen2 : urls2.length ≤ pf := by simp at hfuel; omega
        obtain ⟨t2, hrec2⟩ := ih next_url urls2 pf (t + 2) hrec hlen2
        refine ⟨t2, ?_⟩
        unfold fetch_page
        rw [hserver url t, hserver url (t + 1)]
        rw [fetch_retry_not429 server url rfuel (t + 2) (pageOf url) 200 (by norm_num)]
        simp [hnext, hrec2]

/-- C7: under a time-invariant, never rate-limited server, the paginated
search visits every result page: `fetch_page` processes exactly the pages
reachable by following `_next` links from the first page, in link order,
and stops exactly at the first page with no `_next` link. -/
theorem fetch_page_follows_next_links (server : SearchServer) (pageOf : String → Page)
    (hserver : ∀ url t, server url t = ⟨200, pageOf url⟩)
    (n : Nat) (url : String) (urls : List String)
    (hchain : page_chain pageOf n url = some urls)
    (rfuel pfuel t : Nat) (hfuel : urls.length ≤ pfuel) :
    (∃ t2, fetch_page server rfuel pfuel url t = some (urls.map pageOf, t2)) ∧
    urls.head? = some url ∧
    List.Chain' (fun a b => (pageOf a).next = some b) urls ∧
    ∀ hne : urls ≠ [], (pageOf (urls.getLast hne)).next = none :=
  ⟨fetch_page_chain_aux server pageOf hserver rfuel n url urls pfuel t hchain hfuel,
   page_chain_head pageOf n url urls hchain,
   page_chain_links pageOf n url urls hchain,
   page_chain_last pageOf n url urls hchain⟩

/-- Witness for C7 on the concrete two-page catalog. -/
theorem fetch_page_follows_next_links_witness :
    (∃ t2, fetch_page chainServer 1 2 "A" 0 = some ((["A", "B"] : List String).map chainPageOf, t2)) ∧
    (["A", "B"] : List String).head? = some "A" ∧
    List.Chain' (fun a b => (chainPageOf a).next = some b) ["A", "B"] ∧
    ∀ hne : (["A", "B"] : List String) ≠ [],
      (chainPageOf ((["A", "B"] : List String).getLast hne)).next = none :=
  fetch_page_follows_next_links chainServer chainPageOf (fun _ _ => rfl) 2 "A"
    ["A", "B"] (by decide) 1 2 0 (by norm_num)

/-- A completed PSScene4Band row reads exactly the PSScene4Band columns. -/
theorem row_PSScene4Band_cols (item : Json) (lst : List Json)
    (h : row_PSScene4Band item = some lst) :
    lst.map some =
      ["id", "acquired", "cloud_cover", "origin_x", "origin_y", "view_angle",
       "sun_azimuth", "sun_elevation", "anomalous_pixels"].map (col_value item) := by
  simp only [row_PSScene4Band, Option.bind_eq_some] at h
  obtain ⟨id, hid, props, hprops, v1, h1, v2, h2, v3, h3, v4, h4, v5, h5, v6, h6,
    v7, h7, v8, h8, hlst⟩ := h
  obtain rfl := Option.some.inj hlst
  simp [col_value, hid, hprops, h1, h2, h3, h4, h5, h6, h7, h8]

/-- A completed PSOrthoTile row reads exactly the PSOrthoTile columns. -/
theorem row_PSOrthoTile_cols (item : Json) (lst : List Json)
    (h : row_PSOrthoTile item = some lst) :
    lst.map some =
      ["id", "acquired", "cloud_cover", "origin_x", "origin_y", "view_angle",
       "sun_azimuth", "sun_elevation", "anomalous_pixels", "usable_data"].map (col_value item) := by
  simp only [row_PSOrthoTile, Option.bind_eq_some] at h
  obtain ⟨id, hid, props, hprops, v1, h1, v2, h2, v3, h3, v4, h4, v5, h5, v6, h6,
    v7, h7, v8, h8, v9, h9, hlst⟩ := h
  obtain rfl := Option.some.inj hlst
  simp [col_value, hid, hprops, h1, h2, h3, h4, h5, h6, h7, h8, h9]

/-- A completed REOrthoTile row reads exactly the REOrthoTile columns. -/
theorem row_REOrthoTile_cols (item : Json) (lst : List Json)
    (h : row_REOrthoTile item = some lst) :
    lst.map some =
      ["id", "acquired", "cloud_cover", "origin_x", "origin_y", "view_angle",
       "sun_azimuth", "sun_elevation", "anomalous_pixels", "usable_data"].map (col_value item) := by
  simp only [row_REOrthoTile, Option.bind_eq_some] at h
  obtain ⟨id, hid, props, hprops, v1, h1, v2, h2, v3, h3, v4, h4, v5, h5, v6, h6,
    v7, h7, v8, h8, v9, h9, hlst⟩ := h
  obtain rfl := Option.some.inj hlst
  simp [col_value, hid, hprops, h1, h2, h3, h4, h5, h6, h7, h8, h9]

/-- For the three supported item types, a completed row has exactly the
columns of `cols` for that type, each holding that column value. -/
theorem handle_page_item_cols (item_type : String)
    (hit : item_type = "PSScene4Band" ∨ item_type = "PSOrthoTile" ∨ item_type = "REOrthoTile")
    (item : Json) (lst : List Json)
    (h : handle_page_item item_type item = some lst) :
    ∃ cs, cols.lookup item_type = some cs ∧ lst.map some = cs.map (col_value item) := by
  rcases hit with rfl | rfl | rfl
  · exact ⟨_, rfl, row_PSScene4Band_cols item lst (by simpa [handle_page_item] using h)⟩
  · exact ⟨_, rfl, row_PSOrthoTile_cols item lst (by simpa [handle_page_item] using h)⟩
  · exact ⟨_, rfl, row_REOrthoTile_cols item lst (by simpa [handle_page_item] using h)⟩

/-- `handle_page` appends exactly one row per feature, in order. -/
theorem handle_page_eq_map (item_type : String) :
    ∀ (features : List Json) (acc rows : List (List Json)),
      handle_page item_type features acc = some rows →
      List.map some rows =
        List.map some acc ++ features.map (handle_page_item item_type) := by
  intro features
  induction features with
  | nil =>
    intro acc rows h
    simp only [handle_page] at h
    obtain rfl := Option.some.inj h
    simp
  | cons item rest ih =>
    intro acc rows h
    unfold handle_page at h
    rcases hi : handle_page_item item_type item with _ | lst <;> simp only [hi] at h
    · exact absurd h (by simp)
    · have := ih (acc ++ [lst]) rows h
      simpa [hi, List.append_assoc] using this

/-- C2: for the three supported item types, every feature of every fetched
result page contributes exactly one row to the search output, in page
order, each row holding exactly the columns of `cols` for that item type,
and the CSV file is named `item_type + "_" + search_name + ".csv"`. -/
theorem planet_search_rows_tabular (server : SearchServer) (item_type : String)
    (hit : item_type = "PSScene4Band" ∨ item_type = "PSOrthoTile" ∨ item_type = "REOrthoTile")
    (rfuel pfuel t : Nat) (url search_name : String)
    (pages : List Page) (t2 : Nat) (rows : List (List Json))
    (hfetch : fetch_page server rfuel pfuel url t = some (pages, t2))
    (hrows : planet_search_rows server item_type rfuel pfuel url t = some rows) :
    ∃ cs, cols.lookup item_type = some cs ∧
      List.map some rows = (pages.flatMap Page.features).map (handle_page_item item_type) ∧
      rows.length = (pages.flatMap Page.features).length ∧
      (∀ item lst, handle_page_item item_type item = some lst →
        lst.map some = cs.map (col_value item)) ∧
      csv_name item_type search_name = item_type ++ "_" ++ search_name ++ ".csv" := by
  have hhp : handle_page item_type (pages.flatMap Page.features) [] = some rows := by
    unfold planet_search_rows at hrows
    rw [hfetch] at hrows
    exact hrows
  have hmap := handle_page_eq_map item_type (pages.flatMap Page.features) [] rows hhp
  simp only [List.map_nil, List.nil_append] at hmap
  obtain ⟨cs, hcs⟩ : ∃ cs, cols.lookup item_type = some cs := by
    rcases hit with rfl | rfl | rfl <;> exact ⟨_, rfl⟩
  refine ⟨cs, hcs, hmap, ?_, ?_, rfl⟩
  · have := congrArg List.length hmap
    simpa using this
  · intro item lst h
    obtain ⟨cs2, hcs2, hl⟩ := handle_page_item_cols item_type hit item lst h
    rw [hcs] at hcs2
    obtain rfl := Option.some.inj hcs2
    exact hl

/-- Witness for C2 on the concrete one-page, one-feature search. -/
theorem planet_search_rows_tabular_witness :
    ∃ cs, cols.lookup "PSScene4Band" = some cs ∧
      List.map some [sampleRow] =
        (([samplePage] : List Page).flatMap Page.features).map (handle_page_item "PSScene4Band") ∧
      ([sampleRow] : List (List Json)).length =
        (([samplePage] : List Page).flatMap Page.features).length ∧
      (∀ item lst, handle_page_item "PSScene4Band" item = some lst →
        lst.map some = cs.map (col_value item)) ∧
      csv_name "PSScene4Band" "s" = "PSScene4Band" ++ "_" ++ "s" ++ ".csv" :=
  planet_search_rows_tabular samplePageServer "PSScene4Band" (Or.inl rfl) 1 1 0 "u" "s"
    [samplePage] 2 [sampleRow] (by rfl) (by rfl)
